import Mathlib

/- Verification development for the claude-qdrant-mcp server: a shallow embedding of
its query validation layer (src/index.ts), its Qdrant persistence layer
(src/persistence/qdrant.ts) and its configuration (src/config.ts), together with
theorems settling the frozen specification claims.

Modelling conventions:
- JavaScript numbers are modelled as rationals (Rat); NaN and the floating-point
  representation are outside the model.
- The external vector store is modelled as a map from collection names to point
  lists; its similarity-search primitive returns the stored points of one
  collection ranked by a similarity function and truncated to the limit.
- Fallible external calls (embedding backend, per-collection store searches) are
  modelled as explicit outcome parameters of type Except String.
- Stateful methods are modelled as explicit state-passing functions; the calls a
  method issues to the embedding backend and the store are recorded in a trace. -/

namespace QdrantRag

/-! ## JSON argument model and the query-boundary validators (src/index.ts) -/

/-- A JSON value as far as the validators inspect it: a string, a number
(modelled as a rational), or anything else. -/
inductive JsonValue where
  | str (s : String)
  | num (q : Rat)
  | other
  deriving DecidableEq, Repr

/-- The argument record `Record<string, unknown>` restricted to the four keys the
validators read; a missing key is `none`. -/
structure Args where
  query : Option JsonValue
  client : Option JsonValue
  source : Option JsonValue
  limit : Option JsonValue
  deriving DecidableEq, Repr

/-- Mirror of the TS interface CatalogSearchRequest. -/
structure CatalogSearchRequest where
  query : String
  client : Option String
  limit : Option Rat
  deriving DecidableEq, Repr

/-- Mirror of the TS interface ChunksSearchRequest. -/
structure ChunksSearchRequest where
  query : String
  client : Option String
  source : Option String
  limit : Option Rat
  deriving DecidableEq, Repr

/-- Mirror of the TS interface AllChunksSearchRequest. -/
structure AllChunksSearchRequest where
  query : String
  limit : Option Rat
  deriving DecidableEq, Repr

/-- The query check shared by all three validators:
if (typeof args.query !== 'string') throw. -/
def checkQuery : Option JsonValue → Except String String
  | some (JsonValue.str s) => Except.ok s
  | _ => Except.error "Query must be a string"

/-- The client check of validateCatalogSearchRequest / validateChunksSearchRequest:
if args.client is present it must be a string and a member of the configured
client list. -/
def checkClient (clients : List String) : Option JsonValue → Except String (Option String)
  | none => Except.ok none
  | some (JsonValue.str s) =>
    if clients.contains s then Except.ok (some s)
    else Except.error ("Invalid client. Must be one of: " ++ String.intercalate ", " clients)
  | some _ => Except.error "Client must be a string"

/-- The source check of validateChunksSearchRequest: if present it must be a string. -/
def checkSource : Option JsonValue → Except String (Option String)
  | none => Except.ok none
  | some (JsonValue.str s) => Except.ok (some s)
  | some _ => Except.error "Source must be a string"

/-- The limit check shared by all three validators:
if (typeof args.limit !== 'number' || args.limit < 1 || args.limit > 100) throw. -/
def checkLimit : Option JsonValue → Except String (Option Rat)
  | none => Except.ok none
  | some (JsonValue.num n) =>
    if n < 1 ∨ n > 100 then Except.error "Limit must be a number between 1 and 100"
    else Except.ok (some n)
  | some _ => Except.error "Limit must be a number between 1 and 100"

/-- Embedding of validateCatalogSearchRequest: the sequential field checks of
src/index.ts lines 35-60. -/
def validateCatalogSearchRequest (clients : List String) (args : Args) :
    Except String CatalogSearchRequest := do
  let q ← checkQuery args.query
  let c ← checkClient clients args.client
  let l ← checkLimit args.limit
  Except.ok { query := q, client := c, limit := l }

/-- Embedding of validateChunksSearchRequest: src/index.ts lines 62-94. -/
def validateChunksSearchRequest (clients : List String) (args : Args) :
    Except String ChunksSearchRequest := do
  let q ← checkQuery args.query
  let c ← checkClient clients args.client
  let s ← checkSource args.source
  let l ← checkLimit args.limit
  Except.ok { query := q, client := c, source := s, limit := l }

/-- Embedding of validateAllChunksSearchRequest: src/index.ts lines 96-111.
It reads only the query and limit keys; a client key in the argument record is
never inspected. -/
def validateAllChunksSearchRequest (args : Args) :
    Except String AllChunksSearchRequest := do
  let q ← checkQuery args.query
  let l ← checkLimit args.limit
  Except.ok { query := q, limit := l }

/-- The query argument is a string (the condition under which no validator
rejects the query field). -/
def queryOk (v : Option JsonValue) : Prop := ∃ s, v = some (JsonValue.str s)

/-- A client argument is supplied and is either not a string or not a member of
the configured client list. -/
def clientBad (clients : List String) (v : Option JsonValue) : Prop :=
  ∃ j, v = some j ∧ ∀ s, j = JsonValue.str s → clients.contains s = false

/-- A source argument is supplied and is not a string. -/
def sourceBad (v : Option JsonValue) : Prop :=
  ∃ j, v = some j ∧ ∀ s, j ≠ JsonValue.str s

/-- A limit argument is supplied and is either not a number or out of the
1..100 range. -/
def limitBad (v : Option JsonValue) : Prop :=
  ∃ j, v = some j ∧ ∀ n : Rat, j = JsonValue.num n → (n < 1 ∨ n > 100)

/-- The returned catalog request carries the arguments through unchanged. -/
def catalogReqMatches (clients : List String) (args : Args) (r : CatalogSearchRequest) : Prop :=
  args.query = some (JsonValue.str r.query) ∧
  (match r.client with
   | none => args.client = none
   | some s => args.client = some (JsonValue.str s) ∧ clients.contains s = true) ∧
  (match r.limit with
   | none => args.limit = none
   | some n => args.limit = some (JsonValue.num n) ∧ 1 ≤ n ∧ n ≤ 100)

/-- The returned chunks request carries the arguments through unchanged. -/
def chunksReqMatches (clients : List String) (args : Args) (r : ChunksSearchRequest) : Prop :=
  args.query = some (JsonValue.str r.query) ∧
  (match r.client with
   | none => args.client = none
   | some s => args.client = some (JsonValue.str s) ∧ clients.contains s = true) ∧
  (match r.source with
   | none => args.source = none
   | some s => args.source = some (JsonValue.str s)) ∧
  (match r.limit with
   | none => args.limit = none
   | some n => args.limit = some (JsonValue.num n) ∧ 1 ≤ n ∧ n ≤ 100)

/-- The returned all-chunks request carries the arguments through unchanged. -/
def allChunksReqMatches (args : Args) (r : AllChunksSearchRequest) : Prop :=
  args.query = some (JsonValue.str r.query) ∧
  (match r.limit with
   | none => args.limit = none
   | some n => args.limit = some (JsonValue.num n) ∧ 1 ≤ n ∧ n ≤ 100)

/-! ## Search results and score-descending ordering -/

/-- Mirror of the metadata object inside the TS SearchResult interface. -/
structure SearchMeta where
  collection : String
  chunk_index : Option Nat := none
  chunk_total : Option Nat := none
  overview : Option String := none
  deriving DecidableEq, Repr

/-- Mirror of the TS SearchResult interface (src/types.ts); the score is a
rational. -/
structure SearchResult where
  type : String
  score : Rat
  source : String
  content : String
  metadata : SearchMeta
  deriving DecidableEq, Repr

/-- The ordering used by the merge steps: a comes before b when the score of b
is at most the score of a (the JS comparator (a, b) => b.score - a.score). -/
def scoreGe (a b : SearchResult) : Prop := b.score ≤ a.score

instance : DecidableRel scoreGe := fun a b => inferInstanceAs (Decidable (b.score ≤ a.score))

instance : IsTotal SearchResult scoreGe := ⟨fun a b => le_total b.score a.score⟩

instance : IsTrans SearchResult scoreGe := ⟨fun _ _ _ h₁ h₂ => le_trans h₂ h₁⟩

/-- results.sort((a, b) => b.score - a.score): a comparator-consistent sort by
descending score. -/
def sortDesc (l : List SearchResult) : List SearchResult := List.insertionSort scoreGe l

/-- A result list is sorted by descending score. -/
def SortedDesc (l : List SearchResult) : Prop := List.Sorted scoreGe l

/-! ## Configuration (src/config.ts) -/

/-- Mirror of the TS CollectionConfig interface. -/
structure CollectionConfig where
  name : String
  type : String
  client : String
  description : String
  deriving DecidableEq, Repr

/-- The catalog collection name of a tenant: client + "_catalog". -/
def catalogName (client : String) : String := client ++ "_catalog"

/-- The chunk collection name of a tenant: client + "_chunks". -/
def chunksName (client : String) : String := client ++ "_chunks"

/-- The catalog collection configuration pushed for one client
(src/config.ts lines 26-32). -/
def catalogConfig (client : String) : CollectionConfig :=
  { name := catalogName client, type := "catalog", client := client,
    description := "Document catalog for " ++ client }

/-- The chunks collection configuration pushed for one client
(src/config.ts lines 33-38). -/
def chunksConfig (client : String) : CollectionConfig :=
  { name := chunksName client, type := "chunks", client := client,
    description := "Document chunks for " ++ client }

/-- The collection registry generated from the configured client list:
for each client, its catalog configuration then its chunks configuration. -/
def collectionsFor (clients : List String) : List CollectionConfig :=
  clients.flatMap (fun c => [catalogConfig c, chunksConfig c])

/-- Math.ceil(a / b) on naturals (b the number of tenants fanned out over). -/
def ceilDiv (a b : Nat) : Nat := (a + b - 1) / b

/-! ## SHA-256 (the crypto.createHash("sha256") call in hashString)

The digest is computed over the UTF-8 bytes of the input string, exactly as
Node's hash.update(str) does. Words are naturals reduced modulo 2 ^ 32. -/

/-- Reduce a natural modulo 2 ^ 32 (32-bit word arithmetic). -/
def w32 (n : Nat) : Nat := n % 4294967296

/-- Rotate a 32-bit word right by n bits (the OR of the two shifted parts). -/
def rotr32 (n x : Nat) : Nat := w32 ((x >>> n) ||| (x <<< (32 - n)))

/-- Bitwise complement of a 32-bit word, as XOR with the all-ones mask. -/
def not32 (x : Nat) : Nat := x ^^^ 4294967295

/-- SHA-256 Ch(e, f, g). -/
def sha256Ch (e f g : Nat) : Nat := (e &&& f) ^^^ (not32 e &&& g)

/-- SHA-256 Maj(a, b, c). -/
def sha256Maj (a b c : Nat) : Nat := (a &&& b) ^^^ (a &&& c) ^^^ (b &&& c)

/-- SHA-256 big sigma 0. -/
def bigSigma0 (x : Nat) : Nat := rotr32 2 x ^^^ rotr32 13 x ^^^ rotr32 22 x

/-- SHA-256 big sigma 1. -/
def bigSigma1 (x : Nat) : Nat := rotr32 6 x ^^^ rotr32 11 x ^^^ rotr32 25 x

/-- SHA-256 small sigma 0. -/
def smallSigma0 (x : Nat) : Nat := rotr32 7 x ^^^ rotr32 18 x ^^^ (x >>> 3)

/-- SHA-256 small sigma 1. -/
def smallSigma1 (x : Nat) : Nat := rotr32 17 x ^^^ rotr32 19 x ^^^ (x >>> 10)

/-- The 64 SHA-256 round constants, written in decimal. -/
def sha256K : List Nat :=
  [1116352408, 1899447441, 3049323471, 3921009573, 961987163, 1508970993,
   2453635748, 2870763221, 3624381080, 310598401, 607225278, 1426881987,
   1925078388, 2162078206, 2614888103, 3248222580, 3835390401, 4022224774,
   264347078, 604807628, 770255983, 1249150122, 1555081692, 1996064986,
   2554220882, 2821834349, 2952996808, 3210313671, 3336571891, 3584528711,
   113926993, 338241895, 666307205, 773529912, 1294757372, 1396182291,
   1695183700, 1986661051, 2177026350, 2456956037, 2730485921, 2820302411,
   3259730800, 3345764771, 3516065817, 3600352804, 4094571909, 275423344,
   430227734, 506948616, 659060556, 883997877, 958139571, 1322822218,
   1537002063, 1747873779, 1955562222, 2024104815, 2227730452, 2361852424,
   2428436474, 2756734187, 3204031479, 3329325298]

/-- The SHA-256 initial hash value, written in decimal. -/
def sha256H0 : List Nat :=
  [1779033703, 3144134277, 1013904242, 2773480762,
   1359893119, 2600822924, 528734635, 1541459225]

/-- SHA-256 padding: append 0x80, zeros to 56 mod 64, then the bit length as
eight big-endian bytes. -/
def sha256Pad (msg : List Nat) : List Nat :=
  let len := msg.length
  let zeros := (64 + 56 - (len + 1) % 64) % 64
  msg ++ [128] ++ List.replicate zeros 0 ++
    (List.range 8).map (fun i => ((len * 8) >>> (8 * (7 - i))) % 256)

/-- Four big-endian bytes to one 32-bit word. -/
def bytesToWordBE (bs : List Nat) : Nat := bs.foldl (fun acc b => acc * 256 + b) 0

/-- The sixteen 32-bit words of one 64-byte block. -/
def blockWords (block : List Nat) : List Nat :=
  (List.range 16).map (fun i => bytesToWordBE ((block.drop (4 * i)).take 4))

/-- Extend sixteen words to the 64-entry message schedule. -/
def extendWords (ws : List Nat) : List Nat :=
  (List.range 48).foldl
    (fun w _ =>
      let i := w.length
      w ++ [w32 (w.getD (i - 16) 0 + smallSigma0 (w.getD (i - 15) 0) +
                 w.getD (i - 7) 0 + smallSigma1 (w.getD (i - 2) 0))])
    ws

/-- One SHA-256 compression round. -/
def sha256Round (w : List Nat) (st : Nat × Nat × Nat × Nat × Nat × Nat × Nat × Nat) (i : Nat) :
    Nat × Nat × Nat × Nat × Nat × Nat × Nat × Nat :=
  let (a, b, c, d, e, f, g, h) := st
  let t1 := w32 (h + bigSigma1 e + sha256Ch e f g + sha256K.getD i 0 + w.getD i 0)
  let t2 := w32 (bigSigma0 a + sha256Maj a b c)
  (w32 (t1 + t2), a, b, c, w32 (d + t1), e, f, g)

/-- Compress one 64-byte block into the running hash state (eight words). -/
def sha256Compress (hs : List Nat) (block : List Nat) : List Nat :=
  let w := extendWords (blockWords block)
  let init := (hs.getD 0 0, hs.getD 1 0, hs.getD 2 0, hs.getD 3 0,
               hs.getD 4 0, hs.getD 5 0, hs.getD 6 0, hs.getD 7 0)
  let (a, b, c, d, e, f, g, h) := (List.range 64).foldl (sha256Round w) init
  [w32 (hs.getD 0 0 + a), w32 (hs.getD 1 0 + b), w32 (hs.getD 2 0 + c), w32 (hs.getD 3 0 + d),
   w32 (hs.getD 4 0 + e), w32 (hs.getD 5 0 + f), w32 (hs.getD 6 0 + g), w32 (hs.getD 7 0 + h)]

/-- One 32-bit word to four big-endian bytes. -/
def wordToBytesBE (w : Nat) : List Nat := [(w >>> 24) % 256, (w >>> 16) % 256, (w >>> 8) % 256, w % 256]

/-- The SHA-256 digest (32 bytes) of a byte list. -/
def sha256Bytes (msg : List Nat) : List Nat :=
  let padded := sha256Pad msg
  let final := (List.range (padded.length / 64)).foldl
    (fun hs i => sha256Compress hs ((padded.drop (64 * i)).take 64)) sha256H0
  final.flatMap wordToBytesBE

/-- The UTF-8 bytes of a string (hash.update(str) encodes in UTF-8). -/
def utf8Bytes (s : String) : List Nat := s.toUTF8.toList.map UInt8.toNat

/-- buffer.readUInt32BE(0): the big-endian 32-bit integer formed by the first
four bytes. -/
def readUInt32BE (bs : List Nat) : Nat :=
  bs.getD 0 0 * 16777216 + bs.getD 1 0 * 65536 + bs.getD 2 0 * 256 + bs.getD 3 0

/-- Embedding of QdrantPersistence.hashString (src/persistence/qdrant.ts lines
179-184): the first four bytes of the SHA-256 digest of the string, read as a
big-endian unsigned 32-bit integer. -/
def hashString (s : String) : Nat := readUInt32BE (sha256Bytes (utf8Bytes s))

/-! ## The vector store model and the persistence layer writes
(src/persistence/qdrant.ts)

The external Qdrant store is a map from collection names to stored points.
Upserting a point replaces any point of the same id in that collection; the
similarity-search primitive ranks the points of one collection by a similarity
function and truncates to the limit. -/

/-- A stored point: id, vector and the payload fields the code writes.
A payload field the code does not set for the given point kind is the empty
string or zero. -/
structure Point where
  id : Nat
  vector : List Rat
  source : String
  hash : String
  content : String
  chunk_content : String
  chunk_index : Nat
  chunk_total : Nat
  overview : String
  created_at : String
  ptype : String
  deriving DecidableEq, Repr

/-- The external store: collection name to stored points. -/
abbrev Store : Type := String → List Point

/-- client.upsert(collectionName, points: [p]): replace any point with the same
id in that collection. -/
def upsertPoint (store : Store) (coll : String) (p : Point) : Store :=
  fun c => if c = coll then p :: (store coll).filter (fun q => !(q.id == p.id)) else store c

/-- An external call issued by a persistence method. -/
inductive ExtCall where
  | embed (text : String)
  | upsert (collection : String) (id : Nat)
  deriving DecidableEq, Repr

/-- Mirror of the TS CatalogEntry interface (src/types.ts). -/
structure CatalogEntry where
  source : String
  hash : String
  content : String
  overview : String
  created_at : String
  deriving DecidableEq, Repr

/-- Mirror of the TS DocumentChunk interface (src/types.ts). -/
structure DocumentChunk where
  source : String
  hash : String
  content : String
  chunk_index : Nat
  chunk_total : Nat
  chunk_content : String
  created_at : String
  deriving DecidableEq, Repr

/-- The catalog point id: hashString(entry.source)
(src/persistence/qdrant.ts line 196). -/
def catalogPointId (e : CatalogEntry) : Nat := hashString e.source

/-- The chunk point id: hashString(chunk.source + "-" + chunk.chunk_index)
(src/persistence/qdrant.ts line 224). -/
def chunkPointId (c : DocumentChunk) : Nat :=
  hashString (c.source ++ "-" ++ toString c.chunk_index)

/-- The point written by storeCatalogEntry. -/
def mkCatalogPoint (e : CatalogEntry) (v : List Rat) : Point :=
  { id := catalogPointId e, vector := v, source := e.source, hash := e.hash,
    content := e.content, chunk_content := "", chunk_index := 0, chunk_total := 0,
    overview := e.overview, created_at := e.created_at, ptype := "catalog" }

/-- The point written by storeDocumentChunk. -/
def mkChunkPoint (c : DocumentChunk) (v : List Rat) : Point :=
  { id := chunkPointId c, vector := v, source := c.source, hash := c.hash,
    content := c.content, chunk_content := c.chunk_content, chunk_index := c.chunk_index,
    chunk_total := c.chunk_total, overview := "", created_at := c.created_at,
    ptype := "chunk" }

/-- Embedding of QdrantPersistence.storeCatalogEntry (src/persistence/qdrant.ts
lines 187-212), on an already-connected instance. registry is the set of
collection names from the configuration; embedO is the outcome of the embedding
call for entry.overview. Returns the thrown error if any, the resulting store
(unchanged on a throw) and the trace of external calls issued. -/
def storeCatalogEntry (registry : List String) (embedO : Except String (List Rat))
    (entry : CatalogEntry) (client : String) (store : Store) :
    Option String × Store × List ExtCall :=
  let collectionName := catalogName client
  if registry.contains collectionName = false then
    (some ("Collection not found: " ++ collectionName), store, [])
  else
    match embedO with
    | Except.error msg => (some msg, store, [ExtCall.embed entry.overview])
    | Except.ok v =>
      (none, upsertPoint store collectionName (mkCatalogPoint entry v),
       [ExtCall.embed entry.overview, ExtCall.upsert collectionName (catalogPointId entry)])

/-- Embedding of QdrantPersistence.storeDocumentChunk (src/persistence/qdrant.ts
lines 215-242), on an already-connected instance. -/
def storeDocumentChunk (registry : List String) (embedO : Except String (List Rat))
    (chunk : DocumentChunk) (client : String) (store : Store) :
    Option String × Store × List ExtCall :=
  let collectionName := chunksName client
  if registry.contains collectionName = false then
    (some ("Collection not found: " ++ collectionName), store, [])
  else
    match embedO with
    | Except.error msg => (some msg, store, [ExtCall.embed chunk.chunk_content])
    | Except.ok v =>
      (none, upsertPoint store collectionName (mkChunkPoint chunk v),
       [ExtCall.embed chunk.chunk_content, ExtCall.upsert collectionName (chunkPointId chunk)])

/-! ## The store-level searches (src/persistence/qdrant.ts lines 245-331) -/

/-- The ordering of scored points by descending score. -/
def scoredGe (a b : Point × Rat) : Prop := b.2 ≤ a.2

instance : DecidableRel scoredGe := fun a b => inferInstanceAs (Decidable (b.2 ≤ a.2))

instance : IsTotal (Point × Rat) scoredGe := ⟨fun a b => le_total b.2 a.2⟩

instance : IsTrans (Point × Rat) scoredGe := ⟨fun _ _ _ h₁ h₂ => le_trans h₂ h₁⟩

/-- The similarity-search primitive of the external store
(client.search(collectionName, vector, limit, filter?)): score the points of
the named collection with the similarity function sim, optionally keep only
those whose source payload matches the filter, rank by descending score and
truncate to the limit. -/
def qdrantSearchPoints (sim : List Rat → List Rat → Rat) (store : Store) (coll : String)
    (qv : List Rat) (limit : Nat) (filter? : Option String) : List (Point × Rat) :=
  let pts : List Point := store coll
  let filtered : List Point := match filter? with
    | some s => pts.filter (fun p => p.source == s)
    | none => pts
  (List.insertionSort scoredGe (filtered.map (fun p => (p, sim qv p.vector)))).take limit

/-- Embedding of QdrantPersistence.searchCatalog (lines 245-280): queries only
the collection client + "_catalog". The registry parameter mirrors the
this.collections map available to the method; the method body never reads it. -/
def searchCatalog (_registry : List String) (sim : List Rat → List Rat → Rat)
    (embedQ : String → List Rat) (store : Store) (query client : String) (limit : Nat) :
    List SearchResult :=
  let collectionName := catalogName client
  let queryVector := embedQ query
  (qdrantSearchPoints sim store collectionName queryVector limit none).map (fun pr =>
    { type := "catalog", score := pr.2, source := pr.1.source, content := pr.1.overview,
      metadata := { collection := collectionName, overview := some pr.1.overview } })

/-- Embedding of QdrantPersistence.searchChunks (lines 283-331): queries only
the collection client + "_chunks", with an optional exact source filter (a
filter is attached only when the source argument is truthy, so an empty string
means no filter). The registry parameter mirrors the this.collections map; the
method body never reads it. -/
def searchChunks (_registry : List String) (sim : List Rat → List Rat → Rat)
    (embedQ : String → List Rat) (store : Store) (query client : String)
    (source? : Option String) (limit : Nat) : List SearchResult :=
  let collectionName := chunksName client
  let queryVector := embedQ query
  let filter? := match source? with
    | some s => if s = "" then none else some s
    | none => none
  (qdrantSearchPoints sim store collectionName queryVector limit filter?).map (fun pr =>
    { type := "chunk", score := pr.2, source := pr.1.source, content := pr.1.chunk_content,
      metadata := { collection := collectionName, chunk_index := some pr.1.chunk_index,
                    chunk_total := some pr.1.chunk_total } })

/-! ## Cross-tenant fan-out (QdrantPersistence.searchAllChunks, lines 334-397)

Here the per-collection store searches are abstracted as outcome functions: the
backend maps a collection name and a per-collection limit to either a scored
hit list or a thrown error. -/

/-- A raw hit returned by the store for one collection: score plus the payload
fields the mapping code reads. -/
structure ScoredPoint where
  score : Rat
  source : String
  chunk_content : String
  chunk_index : Nat
  chunk_total : Nat
  deriving DecidableEq, Repr

/-- The per-collection search outcome function: collection name and limit to
hits or a thrown error. -/
abbrev Backend : Type := String → Nat → Except String (List ScoredPoint)

/-- The mapping from a raw hit of a chunk collection to a SearchResult
(src/persistence/qdrant.ts lines 369-379). -/
def toChunkResult (coll : String) (p : ScoredPoint) : SearchResult :=
  { type := "chunk", score := p.score, source := p.source, content := p.chunk_content,
    metadata := { collection := coll, chunk_index := some p.chunk_index,
                  chunk_total := some p.chunk_total } }

/-- The accumulator loop of searchAllChunks: for each collection, try the
search and push the mapped hits; a per-collection failure is caught and
contributes nothing. -/
def allChunksLoop (backend : Backend) (perLimit : Nat) :
    List CollectionConfig → List SearchResult → List SearchResult
  | [], acc => acc
  | c :: rest, acc =>
    match backend c.name perLimit with
    | Except.ok rs => allChunksLoop backend perLimit rest (acc ++ rs.map (toChunkResult c.name))
    | Except.error _ => allChunksLoop backend perLimit rest acc

/-- The contribution of one chunk collection to the fan-out merge: its mapped
hits on success, nothing when its search failed (the caught branch). -/
def caughtChunkResults (backend : Backend) (perLimit : Nat) (coll : String) :
    List SearchResult :=
  match backend coll perLimit with
  | Except.ok rs => rs.map (toChunkResult coll)
  | Except.error _ => []

/-- Embedding of QdrantPersistence.searchAllChunks (lines 334-397): embed the
query (an embedding failure is caught by the outer try and yields []), filter
the configured collections to the chunk collections, return [] if there are
none, otherwise fetch ceil(limit / count) hits from each (failures caught per
collection), sort all candidates by descending score and truncate to limit. -/
def searchAllChunks (cfg : List CollectionConfig) (embedO : Except String (List Rat))
    (backend : Backend) (limit : Nat) : List SearchResult :=
  match embedO with
  | Except.error _ => []
  | Except.ok _ =>
    let chunkCollections := cfg.filter (fun c => c.type == "chunks")
    if chunkCollections.length = 0 then []
    else
      (sortDesc (allChunksLoop backend (ceilDiv limit chunkCollections.length)
        chunkCollections [])).take limit

/-! ## The RagManager layer (src/index.ts lines 115-220)

The per-tenant persistence searches are abstracted as outcome functions. -/

/-- The outcome function for qdrant.searchCatalog: client and limit to results
or a thrown error. -/
abbrev CatalogSearchFn : Type := String → Nat → Except String (List SearchResult)

/-- The outcome function for qdrant.searchChunks: client, source filter and
limit to results or a thrown error. -/
abbrev ChunksSearchFn : Type := String → Option String → Nat → Except String (List SearchResult)

/-- The value of a caught per-client search: its results on success, nothing on
a thrown error. -/
def okOr (d : List SearchResult) : Except String (List SearchResult) → List SearchResult
  | Except.ok rs => rs
  | Except.error _ => d

/-- Embedding of RagManager.searchCatalog (src/index.ts lines 118-139): with a
truthy client, delegate to the persistence search for that client (errors
propagate); otherwise fan out over every configured client requesting
ceil(limit / clients.length) from each (per-client failures caught), sort by
descending score and slice to limit. -/
def ragSearchCatalog (clients : List String) (qsearch : CatalogSearchFn)
    (client? : Option String) (limit : Nat) : Except String (List SearchResult) :=
  let fanout : List SearchResult :=
    (sortDesc (clients.flatMap
      (fun c => okOr [] (qsearch c (ceilDiv limit clients.length))))).take limit
  match client? with
  | some c => if c = "" then Except.ok fanout else qsearch c limit
  | none => Except.ok fanout

/-- Embedding of RagManager.searchChunks (src/index.ts lines 154-178): same
shape as ragSearchCatalog with the source filter passed through. -/
def ragSearchChunks (clients : List String) (qsearch : ChunksSearchFn)
    (client? : Option String) (source? : Option String) (limit : Nat) :
    Except String (List SearchResult) :=
  let fanout : List SearchResult :=
    (sortDesc (clients.flatMap
      (fun c => okOr [] (qsearch c source? (ceilDiv limit clients.length))))).take limit
  match client? with
  | some c => if c = "" then Except.ok fanout else qsearch c source? limit
  | none => Except.ok fanout

/-- Embedding of RagManager.searchAllChunks (src/index.ts lines 180-193): any
error of the underlying cross-tenant search is caught and yields []; a
non-array result also yields [] (not representable here: an ok outcome always
carries a list). -/
def ragSearchAllChunks (outcome : Except String (List SearchResult)) : List SearchResult :=
  match outcome with
  | Except.ok rs => rs
  | Except.error _ => []

/-- Replace the outcome a backend gives for one collection name (used to state
that a failed collection is equivalent to an empty one). -/
def updateBackend (backend : Backend) (n : String) (v : Except String (List ScoredPoint)) :
    Backend :=
  fun m l => if m = n then v else backend m l

/-- Replace the outcome a chunks search function gives for one client. -/
def updateChunksFn (qsearch : ChunksSearchFn) (t : String)
    (v : Except String (List SearchResult)) : ChunksSearchFn :=
  fun c s l => if c = t then v else qsearch c s l

/-- Replace the outcome a catalog search function gives for one client. -/
def updateCatalogFn (qsearch : CatalogSearchFn) (t : String)
    (v : Except String (List SearchResult)) : CatalogSearchFn :=
  fun c l => if c = t then v else qsearch c l

/-! ## Connection retry (QdrantPersistence.connect, lines 88-115) -/

/-- The observable outcome of one connect() call: whether it returned normally,
the resulting initialized flag, the number of getCollections attempts made and
the list of waits slept between attempts. -/
structure ConnectResult where
  returned : Bool
  initialized : Bool
  attempts : Nat
  delays : List Nat
  deriving DecidableEq, Repr

/-- The retry loop of connect(): while retries > 0, attempt getCollections
(outcome i tells whether the i-th attempt succeeds); on success set the
initialized flag and break; on failure decrement retries, throw if they are
exhausted, otherwise sleep the current delay and double it. -/
def connectLoop (outcome : Nat → Bool) : Nat → Nat → Nat → ConnectResult
  | 0, _, _ => { returned := true, initialized := false, attempts := 0, delays := [] }
  | retries + 1, delay, i =>
    if outcome i then { returned := true, initialized := true, attempts := 1, delays := [] }
    else if retries = 0 then
      { returned := false, initialized := false, attempts := 1, delays := [] }
    else
      let rest := connectLoop outcome retries (delay * 2) (i + 1)
      { returned := rest.returned, initialized := rest.initialized,
        attempts := rest.attempts + 1, delays := delay :: rest.delays }

/-- Embedding of QdrantPersistence.connect: if already initialized return at
once (no attempts); otherwise run the retry loop with retries = 3 and
delay = 2000. -/
def connect (initialized : Bool) (outcome : Nat → Bool) : ConnectResult :=
  if initialized then { returned := true, initialized := true, attempts := 0, delays := [] }
  else connectLoop outcome 3 2000 0

/-! ## Constructor URL validation (QdrantPersistence constructor, lines 61-86) -/

/-- JS String.prototype.startsWith. -/
def strStartsWith (s p : String) : Bool := p.data.isPrefixOf s.data

/-- Embedding of the QdrantPersistence constructor checks: a missing or empty
QDRANT_URL throws, a URL that starts with neither http:// nor https:// throws;
otherwise the client objects are constructed. The construction issues no store
or embedding call, so the trace component is empty in every case. -/
def constructPersistence (url? : Option String) : Except String String × List ExtCall :=
  match url? with
  | none => (Except.error "QDRANT_URL environment variable is required", [])
  | some url =>
    if url = "" then (Except.error "QDRANT_URL environment variable is required", [])
    else if !(strStartsWith url "http://" || strStartsWith url "https://") then
      (Except.error "QDRANT_URL must start with http:// or https://", [])
    else (Except.ok url, [])

/-! ## Theorems. First, helper lemmas about the merge ordering and the
validator field checks. -/

theorem sortedDesc_sortDesc (l : List SearchResult) : SortedDesc (sortDesc l) :=
  List.sorted_insertionSort scoreGe l

theorem sortedDesc_take (l : List SearchResult) (n : Nat) (h : SortedDesc l) :
    SortedDesc (l.take n) :=
  List.Pairwise.sublist (List.take_sublist n l) h

theorem length_take_le (l : List SearchResult) (n : Nat) : (l.take n).length ≤ n := by
  simp [List.length_take]

theorem checkQuery_ok_iff {v : Option JsonValue} {s : String} :
    checkQuery v = Except.ok s ↔ v = some (JsonValue.str s) := by
  cases v with
  | none => simp [checkQuery]
  | some j => cases j <;> simp [checkQuery]

theorem checkQuery_error_iff {v : Option JsonValue} :
    (∃ e, checkQuery v = Except.error e) ↔ ¬ queryOk v := by
  cases v with
  | none => simp [checkQuery, queryOk]
  | some j => cases j <;> simp [checkQuery, queryOk]

theorem checkClient_ok_iff {clients : List String} {v : Option JsonValue} {c? : Option String} :
    checkClient clients v = Except.ok c? ↔
      (v = none ∧ c? = none) ∨
      (∃ s, v = some (JsonValue.str s) ∧ clients.contains s = true ∧ c? = some s) := by
  cases v with
  | none => simp [checkClient, eq_comm]
  | some j =>
    cases j with
    | str s =>
      by_cases h : s ∈ clients
      · simp [checkClient, h, eq_comm]
      · simp [checkClient, h]
    | num q => simp [checkClient]
    | other => simp [checkClient]

theorem checkClient_error_iff {clients : List String} {v : Option JsonValue} :
    (∃ e, checkClient clients v = Except.error e) ↔ clientBad clients v := by
  cases v with
  | none => simp [checkClient, clientBad]
  | some j =>
    cases j with
    | str s =>
      by_cases h : s ∈ clients
      · simp [checkClient, h, clientBad]
      · simp [checkClient, h, clientBad]
    | num q => simp [checkClient, clientBad]
    | other => simp [checkClient, clientBad]

theorem checkSource_ok_iff {v : Option JsonValue} {s? : Option String} :
    checkSource v = Except.ok s? ↔
      (v = none ∧ s? = none) ∨ (∃ s, v = some (JsonValue.str s) ∧ s? = some s) := by
  cases v with
  | none => simp [checkSource, eq_comm]
  | some j => cases j <;> simp [checkSource, eq_comm]

theorem checkSource_error_iff {v : Option JsonValue} :
    (∃ e, checkSource v = Except.error e) ↔ sourceBad v := by
  cases v with
  | none => simp [checkSource, sourceBad]
  | some j => cases j <;> simp [checkSource, sourceBad]

theorem checkLimit_ok_iff {v : Option JsonValue} {l? : Option Rat} :
    checkLimit v = Except.ok l? ↔
      (v = none ∧ l? = none) ∨
      (∃ n, v = some (JsonValue.num n) ∧ 1 ≤ n ∧ n ≤ 100 ∧ l? = some n) := by
  cases v with
  | none => simp [checkLimit, eq_comm]
  | some j =>
    cases j with
    | str s => simp [checkLimit]
    | num q =>
      by_cases h : q < 1 ∨ q > 100
      · have h1 : ¬ (1 ≤ q ∧ q ≤ 100) := by
          rcases h with h | h
          · exact fun hc => absurd hc.1 (not_le.mpr h)
          · exact fun hc => absurd hc.2 (not_le.mpr h)
        simp [checkLimit, h]
        intro ha hb
        exact fun _ => h1 ⟨ha, hb⟩
      · push_neg at h
        simp [checkLimit, not_or, not_lt.mpr h.1, not_lt.mpr h.2, h.1, h.2, eq_comm]
    | other => simp [checkLimit]

theorem checkLimit_error_iff {v : Option JsonValue} :
    (∃ e, checkLimit v = Except.error e) ↔ limitBad v := by
  cases v with
  | none => simp [checkLimit, limitBad]
  | some j =>
    cases j with
    | str s => simp [checkLimit, limitBad]
    | num q =>
      by_cases h : q < 1 ∨ q > 100
      · simp [checkLimit, h, limitBad]
      · simp [checkLimit, h, limitBad]
    | other => simp [checkLimit, limitBad]

theorem not_clientBad_of_ok {clients : List String} {v : Option JsonValue} {c : Option String}
    (hc : checkClient clients v = Except.ok c) : ¬ clientBad clients v := by
  intro hb
  rcases checkClient_error_iff.mpr hb with ⟨e, he⟩
  rw [hc] at he
  cases he

theorem not_sourceBad_of_ok {v : Option JsonValue} {s : Option String}
    (hs : checkSource v = Except.ok s) : ¬ sourceBad v := by
  intro hb
  rcases checkSource_error_iff.mpr hb with ⟨e, he⟩
  rw [hs] at he
  cases he

theorem not_limitBad_of_ok {v : Option JsonValue} {l : Option Rat}
    (hl : checkLimit v = Except.ok l) : ¬ limitBad v := by
  intro hb
  rcases checkLimit_error_iff.mpr hb with ⟨e, he⟩
  rw [hl] at he
  cases he

theorem validateCatalog_error_iff (clients : List String) (args : Args) :
    (∃ e, validateCatalogSearchRequest clients args = Except.error e) ↔
      ¬ queryOk args.query ∨ clientBad clients args.client ∨ limitBad args.limit := by
  cases hq : checkQuery args.query with
  | error e =>
    have hq' : ¬ queryOk args.query := checkQuery_error_iff.mp ⟨e, hq⟩
    simp [validateCatalogSearchRequest, Bind.bind, Except.bind, hq, hq']
  | ok q =>
    have hqok : queryOk args.query := ⟨q, checkQuery_ok_iff.mp hq⟩
    cases hc : checkClient clients args.client with
    | error e =>
      have hb : clientBad clients args.client := checkClient_error_iff.mp ⟨e, hc⟩
      simp [validateCatalogSearchRequest, Bind.bind, Except.bind, hq, hc, hqok, hb]
    | ok c =>
      have hcg := not_clientBad_of_ok hc
      cases hl : checkLimit args.limit with
      | error e =>
        have hb : limitBad args.limit := checkLimit_error_iff.mp ⟨e, hl⟩
        simp [validateCatalogSearchRequest, Bind.bind, Except.bind, hq, hc, hl, hqok, hcg, hb]
      | ok l =>
        have hlg := not_limitBad_of_ok hl
        simp [validateCatalogSearchRequest, Bind.bind, Except.bind, hq, hc, hl, hqok, hcg, hlg]

theorem validateCatalog_ok_carries (clients : List String) (args : Args)
    (r : CatalogSearchRequest) (h : validateCatalogSearchRequest clients args = Except.ok r) :
    catalogReqMatches clients args r := by
  cases hq : checkQuery args.query with
  | error e => simp [validateCatalogSearchRequest, Bind.bind, Except.bind, hq] at h
  | ok q =>
    cases hc : checkClient clients args.client with
    | error e => simp [validateCatalogSearchRequest, Bind.bind, Except.bind, hq, hc] at h
    | ok c =>
      cases hl : checkLimit args.limit with
      | error e => simp [validateCatalogSearchRequest, Bind.bind, Except.bind, hq, hc, hl] at h
      | ok l =>
        simp [validateCatalogSearchRequest, Bind.bind, Except.bind, hq, hc, hl] at h
        subst h
        refine ⟨checkQuery_ok_iff.mp hq, ?_, ?_⟩
        · rcases checkClient_ok_iff.mp hc with ⟨hv, hcn⟩ | ⟨s, hv, hm, hcn⟩
          · subst hcn; exact hv
          · subst hcn; exact ⟨hv, hm⟩
        · rcases checkLimit_ok_iff.mp hl with ⟨hv, hln⟩ | ⟨n, hv, h1, h2, hln⟩
          · subst hln; exact hv
          · subst hln; exact ⟨hv, h1, h2⟩

theorem validateChunks_error_iff (clients : List String) (args : Args) :
    (∃ e, validateChunksSearchRequest clients args = Except.error e) ↔
      ¬ queryOk args.query ∨ clientBad clients args.client ∨ sourceBad args.source ∨
        limitBad args.limit := by
  cases hq : checkQuery args.query with
  | error e =>
    have hq' : ¬ queryOk args.query := checkQuery_error_iff.mp ⟨e, hq⟩
    simp [validateChunksSearchRequest, Bind.bind, Except.bind, hq, hq']
  | ok q =>
    have hqok : queryOk args.query := ⟨q, checkQuery_ok_iff.mp hq⟩
    cases hc : checkClient clients args.client with
    | error e =>
      have hb : clientBad clients args.client := checkClient_error_iff.mp ⟨e, hc⟩
      simp [validateChunksSearchRequest, Bind.bind, Except.bind, hq, hc, hqok, hb]
    | ok c =>
      have hcg := not_clientBad_of_ok hc
      cases hs : checkSource args.source with
      | error e =>
        have hb : sourceBad args.source := checkSource_error_iff.mp ⟨e, hs⟩
        simp [validateChunksSearchRequest, Bind.bind, Except.bind, hq, hc, hs, hqok, hcg, hb]
      | ok s =>
        have hsg := not_sourceBad_of_ok hs
        cases hl : checkLimit args.limit with
        | error e =>
          have hb : limitBad args.limit := checkLimit_error_iff.mp ⟨e, hl⟩
          simp [validateChunksSearchRequest, Bind.bind, Except.bind, hq, hc, hs, hl, hqok, hcg,
            hsg, hb]
        | ok l =>
          have hlg := not_limitBad_of_ok hl
          simp [validateChunksSearchRequest, Bind.bind, Except.bind, hq, hc, hs, hl, hqok, hcg,
            hsg, hlg]

theorem validateChunks_ok_carries (clients : List String) (args : Args)
    (r : ChunksSearchRequest) (h : validateChunksSearchRequest clients args = Except.ok r) :
    chunksReqMatches clients args r := by
  cases hq : checkQuery args.query with
  | error e => simp [validateChunksSearchRequest, Bind.bind, Except.bind, hq] at h
  | ok q =>
    cases hc : checkClient clients args.client with
    | error e => simp [validateChunksSearchRequest, Bind.bind, Except.bind, hq, hc] at h
    | ok c =>
      cases hs : checkSource args.source with
      | error e => simp [validateChunksSearchRequest, Bind.bind, Except.bind, hq, hc, hs] at h
      | ok s =>
        cases hl : checkLimit args.limit with
        | error e =>
          simp [validateChunksSearchRequest, Bind.bind, Except.bind, hq, hc, hs, hl] at h
        | ok l =>
          simp [validateChunksSearchRequest, Bind.bind, Except.bind, hq, hc, hs, hl] at h
          subst h
          refine ⟨checkQuery_ok_iff.mp hq, ?_, ?_, ?_⟩
          · rcases checkClient_ok_iff.mp hc with ⟨hv, hcn⟩ | ⟨s', hv, hm, hcn⟩
            · subst hcn; exact hv
            · subst hcn; exact ⟨hv, hm⟩
          · rcases checkSource_ok_iff.mp hs with ⟨hv, hsn⟩ | ⟨s', hv, hsn⟩
            · subst hsn; exact hv
            · subst hsn; exact hv
          · rcases checkLimit_ok_iff.mp hl with ⟨hv, hln⟩ | ⟨n, hv, h1, h2, hln⟩
            · subst hln; exact hv
            · subst hln; exact ⟨hv, h1, h2⟩

theorem validateAllChunks_error_iff (args : Args) :
    (∃ e, validateAllChunksSearchRequest args = Except.error e) ↔
      ¬ queryOk args.query ∨ limitBad args.limit := by
  cases hq : checkQuery args.query with
  | error e =>
    have hq' : ¬ queryOk args.query := checkQuery_error_iff.mp ⟨e, hq⟩
    simp [validateAllChunksSearchRequest, Bind.bind, Except.bind, hq, hq']
  | ok q =>
    have hqok : queryOk args.query := ⟨q, checkQuery_ok_iff.mp hq⟩
    cases hl : checkLimit args.limit with
    | error e =>
      have hb : limitBad args.limit := checkLimit_error_iff.mp ⟨e, hl⟩
      simp [validateAllChunksSearchRequest, Bind.bind, Except.bind, hq, hl, hqok, hb]
    | ok l =>
      have hlg := not_limitBad_of_ok hl
      simp [validateAllChunksSearchRequest, Bind.bind, Except.bind, hq, hl, hqok, hlg]

theorem validateAllChunks_ok_carries (args : Args) (r : AllChunksSearchRequest)
    (h : validateAllChunksSearchRequest args = Except.ok r) : allChunksReqMatches args r := by
  cases hq : checkQuery args.query with
  | error e => simp [validateAllChunksSearchRequest, Bind.bind, Except.bind, hq] at h
  | ok q =>
    cases hl : checkLimit args.limit with
    | error e => simp [validateAllChunksSearchRequest, Bind.bind, Except.bind, hq, hl] at h
    | ok l =>
      simp [validateAllChunksSearchRequest, Bind.bind, Except.bind, hq, hl] at h
      subst h
      refine ⟨checkQuery_ok_iff.mp hq, ?_⟩
      rcases checkLimit_ok_iff.mp hl with ⟨hv, hln⟩ | ⟨n, hv, h1, h2, hln⟩
      · subst hln; exact hv
      · subst hln; exact ⟨hv, h1, h2⟩

/-- Claim C3, counterexample: the claim asserts that each of the three
validators rejects a supplied client that is not in the configured client
list; validateAllChunksSearchRequest does not — with "nope" outside the
configured list ["work", "personal"], it accepts the argument record and
silently ignores the client key. -/
theorem validation_claim_counterexample :
    (["work", "personal"] : List String).contains "nope" = false ∧
    validateAllChunksSearchRequest
      { query := some (JsonValue.str "q"), client := some (JsonValue.str "nope"),
        source := none, limit := none } =
      Except.ok { query := "q", limit := none } :=
  ⟨by decide, rfl⟩

/-- Claim C3 (amended): validateCatalogSearchRequest and
validateChunksSearchRequest throw exactly when the query is not a string, a
supplied client is not a configured client, a supplied source (chunks only) is
not a string, or a supplied limit is not a number in 1..100;
validateAllChunksSearchRequest checks only query and limit and ignores any
supplied client; whenever a validator returns, the returned request carries
the arguments through unchanged, with client present only if configured and
limit present only if within 1..100. -/
theorem validation_boundary_amended (clients : List String) (args : Args) :
    ((∃ e, validateCatalogSearchRequest clients args = Except.error e) ↔
      ¬ queryOk args.query ∨ clientBad clients args.client ∨ limitBad args.limit) ∧
    (∀ r, validateCatalogSearchRequest clients args = Except.ok r →
      catalogReqMatches clients args r) ∧
    ((∃ e, validateChunksSearchRequest clients args = Except.error e) ↔
      ¬ queryOk args.query ∨ clientBad clients args.client ∨ sourceBad args.source ∨
        limitBad args.limit) ∧
    (∀ r, validateChunksSearchRequest clients args = Except.ok r →
      chunksReqMatches clients args r) ∧
    ((∃ e, validateAllChunksSearchRequest args = Except.error e) ↔
      ¬ queryOk args.query ∨ limitBad args.limit) ∧
    (∀ r, validateAllChunksSearchRequest args = Except.ok r → allChunksReqMatches args r) ∧
    (∀ j, validateAllChunksSearchRequest { args with client := j } =
      validateAllChunksSearchRequest args) :=
  ⟨validateCatalog_error_iff clients args,
   fun r h => validateCatalog_ok_carries clients args r h,
   validateChunks_error_iff clients args,
   fun r h => validateChunks_ok_carries clients args r h,
   validateAllChunks_error_iff args,
   fun r h => validateAllChunks_ok_carries args r h,
   fun _ => rfl⟩

/-- Witness for the amended C3 theorem: a concrete accepted catalog request,
with the hypothesis discharged by computation. -/
theorem validation_boundary_amended_witness :
    catalogReqMatches ["work"]
      { query := some (JsonValue.str "q"), client := some (JsonValue.str "work"),
        source := none, limit := none }
      { query := "q", client := some "work", limit := none } :=
  (validation_boundary_amended ["work"]
    { query := some (JsonValue.str "q"), client := some (JsonValue.str "work"),
      source := none, limit := none }).2.1
    { query := "q", client := some "work", limit := none } rfl

/-- Claim C7: connect attempts the store at most 3 times with waits of 2000
then 4000 ms between attempts; the first success sets the initialized flag and
returns; three consecutive failures throw without a further wait; once
initialized, connect returns at once with no attempt. -/
theorem connect_bounded_retry (o : Nat → Bool) :
    connect true o =
      { returned := true, initialized := true, attempts := 0, delays := [] } ∧
    (connect false o).attempts ≤ 3 ∧
    (o 0 = true → connect false o =
      { returned := true, initialized := true, attempts := 1, delays := [] }) ∧
    (o 0 = false → o 1 = true → connect false o =
      { returned := true, initialized := true, attempts := 2, delays := [2000] }) ∧
    (o 0 = false → o 1 = false → o 2 = true → connect false o =
      { returned := true, initialized := true, attempts := 3, delays := [2000, 4000] }) ∧
    (o 0 = false → o 1 = false → o 2 = false → connect false o =
      { returned := false, initialized := false, attempts := 3, delays := [2000, 4000] }) := by
  refine ⟨rfl, ?_, ?_, ?_, ?_, ?_⟩
  · cases h0 : o 0 <;> cases h1 : o 1 <;> cases h2 : o 2 <;>
      simp [connect, connectLoop, h0, h1, h2]
  · intro h0
    simp [connect, connectLoop, h0]
  · intro h0 h1
    simp [connect, connectLoop, h0, h1]
  · intro h0 h1 h2
    simp [connect, connectLoop, h0, h1, h2]
  · intro h0 h1 h2
    simp [connect, connectLoop, h0, h1, h2]

/-- Witness for C7: with a backend that succeeds only on the third attempt,
connect makes exactly 3 attempts and waits 2000 then 4000 ms. -/
theorem connect_bounded_retry_witness :
    connect false (fun i => i == 2) =
      { returned := true, initialized := true, attempts := 3, delays := [2000, 4000] } :=
  (connect_bounded_retry (fun i => i == 2)).2.2.2.2.1 rfl rfl rfl

/-- Claim C8: for every store URL that starts with neither http:// nor
https:// (a missing URL included), constructing the persistence layer throws,
and its trace of store and embedding calls is empty. -/
theorem invalid_url_fatal (url? : Option String)
    (h : ∀ u, url? = some u →
      strStartsWith u "http://" = false ∧ strStartsWith u "https://" = false) :
    (∃ e, (constructPersistence url?).1 = Except.error e) ∧
    (constructPersistence url?).2 = [] := by
  cases url? with
  | none => exact ⟨⟨_, rfl⟩, rfl⟩
  | some u =>
    obtain ⟨h1, h2⟩ := h u rfl
    by_cases hu : u = ""
    · subst hu
      exact ⟨⟨_, rfl⟩, rfl⟩
    · simp [constructPersistence, hu, h1, h2]

/-- Witness for C8: the concrete malformed URL ftp://host is rejected. -/
theorem invalid_url_fatal_witness :
    (∃ e, (constructPersistence (some "ftp://host")).1 = Except.error e) ∧
    (constructPersistence (some "ftp://host")).2 = [] :=
  invalid_url_fatal (some "ftp://host")
    (by
      intro u hu
      injection hu with h
      subst h
      exact ⟨by decide, by decide⟩)

theorem mem_wordToBytesBE_lt {w b : Nat} (h : b ∈ wordToBytesBE w) : b < 256 := by
  simp [wordToBytesBE] at h
  rcases h with h | h | h | h <;> subst h <;> exact Nat.mod_lt _ (by norm_num)

theorem mem_sha256Bytes_lt {m : List Nat} {b : Nat} (h : b ∈ sha256Bytes m) : b < 256 := by
  simp only [sha256Bytes, List.mem_flatMap] at h
  rcases h with ⟨w, _, hb⟩
  exact mem_wordToBytesBE_lt hb

theorem getD_sha256Bytes_lt (m : List Nat) (i : Nat) : (sha256Bytes m).getD i 0 < 256 := by
  by_cases h : i < (sha256Bytes m).length
  · rw [List.getD_eq_getElem _ 0 h]
    exact mem_sha256Bytes_lt (List.getElem_mem h)
  · push_neg at h
    simp [List.getD, List.getElem?_eq_none h]

theorem length_sha256Compress (hs block : List Nat) : (sha256Compress hs block).length = 8 := by
  simp only [sha256Compress]
  obtain ⟨a, b, c, d, e, f, g, h⟩ :=
    (List.range 64).foldl (sha256Round (extendWords (blockWords block)))
      (hs.getD 0 0, hs.getD 1 0, hs.getD 2 0, hs.getD 3 0,
       hs.getD 4 0, hs.getD 5 0, hs.getD 6 0, hs.getD 7 0)
  rfl

theorem length_sha256_foldl (l : List Nat → List Nat → List Nat)
    (hl : ∀ hs b, (l hs b).length = 8) (f : Nat → List Nat) :
    ∀ (idxs : List Nat) (hs : List Nat), hs.length = 8 →
      (idxs.foldl (fun h i => l h (f i)) hs).length = 8 := by
  intro idxs
  induction idxs with
  | nil => intro hs h; simpa using h
  | cons i rest ih =>
    intro hs _
    simpa using ih (l hs (f i)) (hl hs (f i))

theorem length_flatMap_wordToBytesBE (ws : List Nat) :
    (ws.flatMap wordToBytesBE).length = 4 * ws.length := by
  induction ws with
  | nil => rfl
  | cons w rest ih =>
    simp [List.flatMap_cons, ih, wordToBytesBE]
    ring

theorem length_sha256Bytes (m : List Nat) : (sha256Bytes m).length = 32 := by
  simp only [sha256Bytes]
  rw [length_flatMap_wordToBytesBE]
  rw [length_sha256_foldl sha256Compress length_sha256Compress
    (fun i => (sha256Pad m).drop (64 * i) |>.take 64) (List.range ((sha256Pad m).length / 64))
    sha256H0 rfl]

theorem readUInt32BE_take4 (bs : List Nat) (h : 4 ≤ bs.length) :
    readUInt32BE bs = (bs.take 4).foldl (fun acc b => acc * 256 + b) 0 := by
  match bs with
  | b0 :: b1 :: b2 :: b3 :: rest =>
    simp [readUInt32BE, List.getD]
    ring
  | [] => simp at h
  | [_] => simp at h
  | [_, _] => simp at h
  | [_, _, _] => simp at h

/-- Claim C9: hashString returns the big-endian unsigned integer formed by the
first four bytes of the SHA-256 digest of the UTF-8 bytes of the string; every
point id therefore lies below 2 ^ 32, and since the id keeps only 32 of the
256 digest bits, distinct strings are not guaranteed distinct ids. -/
theorem hash_id_32bit :
    (∀ s : String, hashString s =
      ((sha256Bytes (utf8Bytes s)).take 4).foldl (fun acc b => acc * 256 + b) 0) ∧
    (∀ s : String, hashString s < 4294967296) ∧
    (∃ s₁ s₂ : String, s₁ ≠ s₂ ∧ hashString s₁ = hashString s₂) := by
  have hlt : ∀ s : String, hashString s < 4294967296 := by
    intro s
    have h0 := getD_sha256Bytes_lt (utf8Bytes s) 0
    have h1 := getD_sha256Bytes_lt (utf8Bytes s) 1
    have h2 := getD_sha256Bytes_lt (utf8Bytes s) 2
    have h3 := getD_sha256Bytes_lt (utf8Bytes s) 3
    simp only [hashString, readUInt32BE]
    omega
  refine ⟨?_, hlt, ?_⟩
  · intro s
    exact readUInt32BE_take4 _ (by rw [length_sha256Bytes]; norm_num)
  · obtain ⟨s₁, s₂, hne, heq⟩ :=
      Finite.exists_ne_map_eq_of_infinite (fun s : String => (⟨hashString s, hlt s⟩ : Fin 4294967296))
    exact ⟨s₁, s₂, hne, congrArg Fin.val heq⟩

theorem chunksName_inj {a b : String} (h : chunksName a = chunksName b) : a = b := by
  have h2 : a.data ++ "_chunks".data = b.data ++ "_chunks".data := by
    have := congrArg String.data h
    simpa [chunksName, String.data_append] using this
  have h3 := List.append_cancel_right h2
  cases a; cases b
  exact congrArg String.mk h3

theorem catalogName_inj {a b : String} (h : catalogName a = catalogName b) : a = b := by
  have h2 : a.data ++ "_catalog".data = b.data ++ "_catalog".data := by
    have := congrArg String.data h
    simpa [catalogName, String.data_append] using this
  have h3 := List.append_cancel_right h2
  cases a; cases b
  exact congrArg String.mk h3

theorem upsert_upsert (store : Store) (coll : String) (p₁ p₂ : Point) (h : p₁.id = p₂.id) :
    upsertPoint (upsertPoint store coll p₁) coll p₂ = upsertPoint store coll p₂ := by
  funext c
  by_cases hc : c = coll
  · have hb : (p₁.id == p₂.id) = true := by simp [h]
    simp only [upsertPoint, hc, if_pos]
    rw [List.filter_cons]
    simp only [hb, Bool.not_true, Bool.false_eq_true, if_neg, not_false_eq_true,
      Bool.false_eq_true]
    rw [List.filter_filter]
    congr 1
    refine List.filter_congr ?_
    intro q _
    rw [h, Bool.and_self]
  · simp [upsertPoint, hc]

/-- Claim C5: the catalog point id is a function of the source path alone, the
chunk point id a function of the pair (source path, chunk index); consequently
writing the same path (respectively the same path and chunk index) twice
leaves the store exactly as the second write alone would: re-upserting
overwrites rather than duplicates. -/
theorem point_identity_deterministic :
    (∀ e₁ e₂ : CatalogEntry, e₁.source = e₂.source → catalogPointId e₁ = catalogPointId e₂) ∧
    (∀ c₁ c₂ : DocumentChunk, c₁.source = c₂.source → c₁.chunk_index = c₂.chunk_index →
      chunkPointId c₁ = chunkPointId c₂) ∧
    (∀ (registry : List String) (v₁ v₂ : List Rat) (e₁ e₂ : CatalogEntry) (client : String)
        (store : Store), e₁.source = e₂.source →
      (storeCatalogEntry registry (Except.ok v₂) e₂ client
          (storeCatalogEntry registry (Except.ok v₁) e₁ client store).2.1).2.1 =
        (storeCatalogEntry registry (Except.ok v₂) e₂ client store).2.1) ∧
    (∀ (registry : List String) (v₁ v₂ : List Rat) (c₁ c₂ : DocumentChunk) (client : String)
        (store : Store), c₁.source = c₂.source → c₁.chunk_index = c₂.chunk_index →
      (storeDocumentChunk registry (Except.ok v₂) c₂ client
          (storeDocumentChunk registry (Except.ok v₁) c₁ client store).2.1).2.1 =
        (storeDocumentChunk registry (Except.ok v₂) c₂ client store).2.1) := by
  have hcat : ∀ e₁ e₂ : CatalogEntry, e₁.source = e₂.source →
      catalogPointId e₁ = catalogPointId e₂ := by
    intro e₁ e₂ h
    simp [catalogPointId, h]
  have hchk : ∀ c₁ c₂ : DocumentChunk, c₁.source = c₂.source → c₁.chunk_index = c₂.chunk_index →
      chunkPointId c₁ = chunkPointId c₂ := by
    intro c₁ c₂ h₁ h₂
    simp [chunkPointId, h₁, h₂]
  refine ⟨hcat, hchk, ?_, ?_⟩
  · intro registry v₁ v₂ e₁ e₂ client store h
    by_cases hr : catalogName client ∈ registry
    · simp only [storeCatalogEntry]
      simp [hr]
      exact upsert_upsert store (catalogName client) _ _ (hcat e₁ e₂ h)
    · simp [storeCatalogEntry, hr]
  · intro registry v₁ v₂ c₁ c₂ client store h₁ h₂
    by_cases hr : chunksName client ∈ registry
    · simp only [storeDocumentChunk]
      simp [hr]
      exact upsert_upsert store (chunksName client) _ _ (hchk c₁ c₂ h₁ h₂)
    · simp [storeDocumentChunk, hr]

/-- Witness for C5: two chunks of the same path and index but different
content, hash and totals derive the same point id. -/
theorem point_identity_deterministic_witness :
    chunkPointId
      { source := "a.md", hash := "h1", content := "x", chunk_index := 0,
        chunk_total := 1, chunk_content := "t1", created_at := "d1" } =
    chunkPointId
      { source := "a.md", hash := "h2", content := "y", chunk_index := 0,
        chunk_total := 2, chunk_content := "t2", created_at := "d2" } :=
  point_identity_deterministic.2.1 _ _ rfl rfl

/-- Claim C1: a chunk search scoped to client A reads only the collection
A_chunks (its result depends only on that collection of the store, and the
catalog search likewise only on A_catalog); a chunk written under client B
changes only the collection B_chunks; hence for A distinct from B, a chunk
search scoped to A is unaffected by any chunk write under B. -/
theorem tenant_isolation (A B : String) (registry : List String)
    (sim : List Rat → List Rat → Rat) (embedQ : String → List Rat)
    (embedO : Except String (List Rat)) (chunk : DocumentChunk)
    (store store' : Store) (q : String) (source? : Option String) (limit : Nat) :
    (store (chunksName A) = store' (chunksName A) →
      searchChunks registry sim embedQ store q A source? limit =
        searchChunks registry sim embedQ store' q A source? limit) ∧
    (store (catalogName A) = store' (catalogName A) →
      searchCatalog registry sim embedQ store q A limit =
        searchCatalog registry sim embedQ store' q A limit) ∧
    (∀ c, c ≠ chunksName B → (storeDocumentChunk registry embedO chunk B store).2.1 c = store c) ∧
    (A ≠ B →
      searchChunks registry sim embedQ ((storeDocumentChunk registry embedO chunk B store).2.1)
          q A source? limit =
        searchChunks registry sim embedQ store q A source? limit) := by
  have read_chunks : ∀ (s s' : Store), s (chunksName A) = s' (chunksName A) →
      searchChunks registry sim embedQ s q A source? limit =
        searchChunks registry sim embedQ s' q A source? limit := by
    intro s s' h
    simp only [searchChunks, qdrantSearchPoints, h]
  have write_scope : ∀ c, c ≠ chunksName B →
      (storeDocumentChunk registry embedO chunk B store).2.1 c = store c := by
    intro c hc
    by_cases hr : chunksName B ∈ registry
    · cases embedO with
      | error e => simp [storeDocumentChunk, hr]
      | ok v => simp [storeDocumentChunk, hr, upsertPoint, hc]
    · simp [storeDocumentChunk, hr]
  refine ⟨read_chunks store store', ?_, write_scope, ?_⟩
  · intro h
    simp only [searchCatalog, qdrantSearchPoints, h]
  · intro hAB
    exact read_chunks _ _ (write_scope (chunksName A) (fun heq => hAB (chunksName_inj heq)))

/-- Witness for C1: with concrete distinct clients work and personal, a chunk
write under personal leaves a chunk search scoped to work unchanged. -/
theorem tenant_isolation_witness :
    searchChunks ["work_chunks", "personal_chunks"] (fun _ _ => 0) (fun _ => [])
        ((storeDocumentChunk ["work_chunks", "personal_chunks"] (Except.ok [])
          { source := "a.md", hash := "h", content := "x", chunk_index := 0,
            chunk_total := 1, chunk_content := "t", created_at := "d" }
          "personal" (fun _ => [])).2.1)
        "q" "work" none 10 =
      searchChunks ["work_chunks", "personal_chunks"] (fun _ _ => 0) (fun _ => [])
        (fun _ => []) "q" "work" none 10 :=
  (tenant_isolation "work" "personal" ["work_chunks", "personal_chunks"] (fun _ _ => 0)
    (fun _ => []) (Except.ok [])
    { source := "a.md", hash := "h", content := "x", chunk_index := 0,
      chunk_total := 1, chunk_content := "t", created_at := "d" }
    (fun _ => []) (fun _ => []) "q" none 10).2.2.2 (by decide)

/-- Claim C10: a write for a tenant whose target collection is not in the
configured registry throws Collection not found with the store unchanged and
no embedding or upsert call issued; the searches never consult the registry
(their result is the same under any two registries). -/
theorem write_guard_registry (registry reg₁ reg₂ : List String)
    (embedO : Except String (List Rat)) (entry : CatalogEntry) (chunk : DocumentChunk)
    (client : String) (store : Store) (sim : List Rat → List Rat → Rat)
    (embedQ : String → List Rat) (q : String) (source? : Option String) (limit : Nat) :
    (registry.contains (catalogName client) = false →
      storeCatalogEntry registry embedO entry client store =
        (some ("Collection not found: " ++ catalogName client), store, [])) ∧
    (registry.contains (chunksName client) = false →
      storeDocumentChunk registry embedO chunk client store =
        (some ("Collection not found: " ++ chunksName client), store, [])) ∧
    (searchChunks reg₁ sim embedQ store q client source? limit =
      searchChunks reg₂ sim embedQ store q client source? limit) ∧
    (searchCatalog reg₁ sim embedQ store q client limit =
      searchCatalog reg₂ sim embedQ store q client limit) := by
  refine ⟨?_, ?_, rfl, rfl⟩
  · intro h
    have h' : catalogName client ∉ registry := by simpa using h
    simp [storeCatalogEntry, h']
  · intro h
    have h' : chunksName client ∉ registry := by simpa using h
    simp [storeDocumentChunk, h']

/-- Witness for C10: the client personal is not in a registry holding only the
work collections, so its catalog write is rejected with an empty call trace. -/
theorem write_guard_registry_witness :
    storeCatalogEntry ["work_catalog", "work_chunks"] (Except.ok [])
        { source := "a.md", hash := "h", content := "x", overview := "o", created_at := "d" }
        "personal" (fun _ => []) =
      (some ("Collection not found: " ++ catalogName "personal"), (fun _ => []), []) :=
  (write_guard_registry ["work_catalog", "work_chunks"] [] [] (Except.ok [])
    { source := "a.md", hash := "h", content := "x", overview := "o", created_at := "d" }
    { source := "a.md", hash := "h", content := "x", chunk_index := 0,
      chunk_total := 1, chunk_content := "t", created_at := "d" }
    "personal" (fun _ => []) (fun _ _ => 0) (fun _ => []) "q" none 10).1 (by decide)

theorem allChunksLoop_eq (backend : Backend) (k : Nat) :
    ∀ (l : List CollectionConfig) (acc : List SearchResult),
      allChunksLoop backend k l acc =
        acc ++ l.flatMap (fun c => caughtChunkResults backend k c.name) := by
  intro l
  induction l with
  | nil => intro acc; simp [allChunksLoop]
  | cons c rest ih =>
    intro acc
    cases hb : backend c.name k with
    | ok rs =>
      simp [allChunksLoop, hb, ih, caughtChunkResults, List.flatMap_cons]
    | error e =>
      simp [allChunksLoop, hb, ih, caughtChunkResults, List.flatMap_cons]

theorem filter_collectionsFor (clients : List String) :
    (collectionsFor clients).filter (fun c => c.type == "chunks") =
      clients.map chunksConfig := by
  induction clients with
  | nil => rfl
  | cons c rest ih =>
    simp only [collectionsFor, List.flatMap_cons, List.filter_append] at ih ⊢
    rw [ih]
    rfl

theorem flatMap_congr_mem {α : Type} (l : List α) (f g : α → List SearchResult)
    (h : ∀ x ∈ l, f x = g x) : l.flatMap f = l.flatMap g := by
  induction l with
  | nil => rfl
  | cons a rest ih =>
    simp only [List.flatMap_cons]
    rw [h a (by simp), ih (fun x hx => h x (by simp [hx]))]

theorem searchAllChunks_eq (clients : List String) (backend : Backend) (qv : List Rat)
    (limit : Nat) :
    searchAllChunks (collectionsFor clients) (Except.ok qv) backend limit =
      (sortDesc ((clients.map chunksName).flatMap
        (caughtChunkResults backend (ceilDiv limit clients.length)))).take limit := by
  simp only [searchAllChunks, filter_collectionsFor, List.length_map]
  by_cases h : clients.length = 0
  · have hnil : clients = [] := List.length_eq_zero.mp h
    subst hnil
    simp [sortDesc]
  · simp only [if_neg h]
    rw [allChunksLoop_eq]
    simp only [List.nil_append, List.flatMap_map]
    rfl

theorem searchAllChunks_sorted_len (cfg : List CollectionConfig)
    (embedO : Except String (List Rat)) (backend : Backend) (limit : Nat) :
    SortedDesc (searchAllChunks cfg embedO backend limit) ∧
    (searchAllChunks cfg embedO backend limit).length ≤ limit := by
  cases embedO with
  | error e => exact ⟨List.Pairwise.nil, by simp [searchAllChunks]⟩
  | ok v =>
    simp only [searchAllChunks]
    by_cases h : (cfg.filter (fun c => c.type == "chunks")).length = 0
    · simp only [if_pos h]
      exact ⟨List.Pairwise.nil, by simp⟩
    · simp only [if_neg h]
      exact ⟨sortedDesc_take _ _ (sortedDesc_sortDesc _), length_take_le _ _⟩

/-- Claim C2: the cross-tenant chunk search requests ceil(limit / tenantCount)
hits from each configured tenant chunk collection, concatenates the caught
per-tenant results, sorts by descending score and truncates to the limit, so
the returned list is sorted by descending score with length at most the limit;
the fan-out modes of the manager-level chunk and catalog searches (no client
given) perform the same merge over the configured clients. -/
theorem fanout_merge_ordering (clients : List String) (backend : Backend) (qv : List Rat)
    (embedO : Except String (List Rat)) (qsC : ChunksSearchFn) (qsK : CatalogSearchFn)
    (source? : Option String) (limit : Nat) :
    (searchAllChunks (collectionsFor clients) (Except.ok qv) backend limit =
      (sortDesc ((clients.map chunksName).flatMap
        (caughtChunkResults backend (ceilDiv limit clients.length)))).take limit) ∧
    SortedDesc (searchAllChunks (collectionsFor clients) embedO backend limit) ∧
    (searchAllChunks (collectionsFor clients) embedO backend limit).length ≤ limit ∧
    (ragSearchChunks clients qsC none source? limit =
      Except.ok ((sortDesc (clients.flatMap
        (fun c => okOr [] (qsC c source? (ceilDiv limit clients.length))))).take limit)) ∧
    SortedDesc (okOr [] (ragSearchChunks clients qsC none source? limit)) ∧
    (okOr [] (ragSearchChunks clients qsC none source? limit)).length ≤ limit ∧
    (ragSearchCatalog clients qsK none limit =
      Except.ok ((sortDesc (clients.flatMap
        (fun c => okOr [] (qsK c (ceilDiv limit clients.length))))).take limit)) ∧
    SortedDesc (okOr [] (ragSearchCatalog clients qsK none limit)) ∧
    (okOr [] (ragSearchCatalog clients qsK none limit)).length ≤ limit := by
  refine ⟨searchAllChunks_eq clients backend qv limit,
    (searchAllChunks_sorted_len _ embedO backend limit).1,
    (searchAllChunks_sorted_len _ embedO backend limit).2,
    rfl, ?_, ?_, rfl, ?_, ?_⟩
  · exact sortedDesc_take _ _ (sortedDesc_sortDesc _)
  · exact length_take_le _ _
  · exact sortedDesc_take _ _ (sortedDesc_sortDesc _)
  · exact length_take_le _ _

/-- Claim C4: in fan-out mode a failing per-tenant search is equivalent to
that tenant returning no hits — the failed tenant is excluded and the other
tenant results are still merged — and the fan-out entry points always return
a result list rather than an error. -/
theorem fanout_failure_containment (clients : List String) (backend : Backend) (qv : List Rat)
    (t : String) (e : String) (limit : Nat) (qsC : ChunksSearchFn) (qsK : CatalogSearchFn)
    (source? : Option String) :
    (backend (chunksName t) (ceilDiv limit clients.length) = Except.error e →
      searchAllChunks (collectionsFor clients) (Except.ok qv) backend limit =
        searchAllChunks (collectionsFor clients) (Except.ok qv)
          (updateBackend backend (chunksName t) (Except.ok [])) limit) ∧
    (qsC t source? (ceilDiv limit clients.length) = Except.error e →
      ragSearchChunks clients qsC none source? limit =
        ragSearchChunks clients (updateChunksFn qsC t (Except.ok [])) none source? limit) ∧
    (qsK t (ceilDiv limit clients.length) = Except.error e →
      ragSearchCatalog clients qsK none limit =
        ragSearchCatalog clients (updateCatalogFn qsK t (Except.ok [])) none limit) ∧
    (∃ rs, ragSearchChunks clients qsC none source? limit = Except.ok rs) ∧
    (∃ rs, ragSearchCatalog clients qsK none limit = Except.ok rs) := by
  refine ⟨?_, ?_, ?_, ⟨_, rfl⟩, ⟨_, rfl⟩⟩
  · intro hfail
    rw [searchAllChunks_eq, searchAllChunks_eq]
    have hfg : ∀ n ∈ clients.map chunksName,
        caughtChunkResults backend (ceilDiv limit clients.length) n =
          caughtChunkResults (updateBackend backend (chunksName t) (Except.ok []))
            (ceilDiv limit clients.length) n := by
      intro n _
      by_cases hn : n = chunksName t
      · subst hn
        simp [caughtChunkResults, updateBackend, hfail]
      · simp [caughtChunkResults, updateBackend, hn]
    rw [flatMap_congr_mem _ _ _ hfg]
  · intro hfail
    simp only [ragSearchChunks, Except.ok.injEq]
    have hfg : ∀ c ∈ clients,
        okOr [] (qsC c source? (ceilDiv limit clients.length)) =
          okOr [] (updateChunksFn qsC t (Except.ok []) c source? (ceilDiv limit clients.length)) := by
      intro c _
      by_cases hc : c = t
      · subst hc
        simp [okOr, updateChunksFn, hfail]
      · simp [updateChunksFn, hc]
    rw [flatMap_congr_mem _ _ _ hfg]
  · intro hfail
    simp only [ragSearchCatalog, Except.ok.injEq]
    have hfg : ∀ c ∈ clients,
        okOr [] (qsK c (ceilDiv limit clients.length)) =
          okOr [] (updateCatalogFn qsK t (Except.ok []) c (ceilDiv limit clients.length)) := by
      intro c _
      by_cases hc : c = t
      · subst hc
        simp [okOr, updateCatalogFn, hfail]
      · simp [updateCatalogFn, hc]
    rw [flatMap_congr_mem _ _ _ hfg]

/-- Witness for C4: with two configured clients and a backend that fails for
the work chunk collection, the fan-out equals the fan-out where work
contributes no hits. -/
theorem fanout_failure_containment_witness :
    searchAllChunks (collectionsFor ["work", "personal"]) (Except.ok [])
        (fun _ _ => Except.error "store unreachable") 10 =
      searchAllChunks (collectionsFor ["work", "personal"]) (Except.ok [])
        (updateBackend (fun _ _ => Except.error "store unreachable") (chunksName "work")
          (Except.ok [])) 10 :=
  (fanout_failure_containment ["work", "personal"]
    (fun _ _ => Except.error "store unreachable") [] "work" "store unreachable" 10
    (fun _ _ _ => Except.error "x") (fun _ _ => Except.error "x") none).1 rfl

/-- Claim C6, counterexample: a chunk search request whose client work passes
validation, issued while the backend search for work throws, makes the
manager-level search return the backend error rather than a result list — a
backend failure does propagate on the single-tenant path. -/
theorem single_tenant_error_counterexample :
    validateChunksSearchRequest ["work", "personal"]
      { query := some (JsonValue.str "q"), client := some (JsonValue.str "work"),
        source := none, limit := none } =
      Except.ok { query := "q", client := some "work", source := none, limit := none } ∧
    ragSearchChunks ["work", "personal"] (fun _ _ _ => Except.error "connect ECONNREFUSED")
        (some "work") none 10 =
      Except.error "connect ECONNREFUSED" :=
  ⟨rfl, rfl⟩

/-- Claim C6 (amended): the fan-out searches (no client) and the cross-tenant
search always return a ranked possibly-empty result list whatever the backend
outcome, and the manager-level cross-tenant wrapper turns any error into [];
but a single-tenant search (a truthy validated client) returns the backend
outcome unchanged, so a backend failure there propagates to the caller. -/
theorem query_totality_amended (clients : List String) (qsC : ChunksSearchFn)
    (qsK : CatalogSearchFn) (c : String) (source? : Option String) (limit : Nat)
    (e : String) :
    (∃ rs, ragSearchChunks clients qsC none source? limit = Except.ok rs) ∧
    (∃ rs, ragSearchCatalog clients qsK none limit = Except.ok rs) ∧
    (c ≠ "" → ragSearchChunks clients qsC (some c) source? limit = qsC c source? limit) ∧
    (c ≠ "" → ragSearchCatalog clients qsK (some c) limit = qsK c limit) ∧
    ragSearchAllChunks (Except.error e) = [] ∧
    (∀ rs, ragSearchAllChunks (Except.ok rs) = rs) := by
  refine ⟨⟨_, rfl⟩, ⟨_, rfl⟩, ?_, ?_, rfl, fun _ => rfl⟩
  · intro h
    simp [ragSearchChunks, h]
  · intro h
    simp [ragSearchCatalog, h]

/-- Witness for the amended C6 theorem: the single-tenant path with client
work hands back exactly the backend outcome. -/
theorem query_totality_amended_witness :
    ragSearchChunks ["work"] (fun _ _ _ => Except.error "down") (some "work") none 5 =
      Except.error "down" :=
  (query_totality_amended ["work"] (fun _ _ _ => Except.error "down")
    (fun _ _ => Except.error "down") "work" none 5 "down").2.2.1 (by decide)

end QdrantRag










